import Mathlib

/-!
Verification of the task-runner scheduling engine (numbleroot/task-runner).

The Rust sources (src/main.rs, src/db.rs, src/api.rs, src/worker.rs) are
shallowly embedded below: SQLite tables become lists of rows, each SQL
statement of the source becomes an explicit list transformation that also
returns the rows-affected count that sqlx reports, and the effectful
executors become pure functions over the database state, with the ambient
clock, the RFC 3339 parser, the HTTP transport and the PBKDF2 computation
supplied as explicit parameters.  Store (I/O) errors on individual queries
are not modelled: the store is taken as available, which is the regime all
of the checked properties speak about.
-/

namespace TaskRunner

/-- Task lifecycle state, the `state` TEXT column: only these four values are
ever written by the program. -/
inductive TState where
  | todo
  | in_progress
  | failed
  | done
deriving DecidableEq

/-- A row of the `webhooks` table (db.rs:76-82, struct DbWebhook/ApiWebhook). -/
structure WebhookRow where
  id : String
  state : TState
  execution_time : String
  url : String
  body : String
deriving DecidableEq

/-- A row of the `hashes` table (db.rs:101-106, struct DbHash/ApiHash). -/
structure HashRow where
  id : String
  state : TState
  execution_time : String
  secret : String
deriving DecidableEq

/-- The durable store: the two independent tables (spec section 6, db.rs). -/
structure Db where
  webhooks : List WebhookRow
  hashes : List HashRow
deriving DecidableEq

/-- A task snapshot handed over the submission channel
(api.rs:37-42, enum Task). -/
inductive Task where
  | webhook (w : WebhookRow)
  | hash (h : HashRow)
deriving DecidableEq

/-- Row transform of an UPDATE that sets `state` to `s` on rows matching `p`. -/
def setStateW (p : WebhookRow → Bool) (s : TState) (r : WebhookRow) : WebhookRow :=
  if p r then { r with state := s } else r

/-- Row transform of an UPDATE on the `hashes` table. -/
def setStateH (p : HashRow → Bool) (s : TState) (r : HashRow) : HashRow :=
  if p r then { r with state := s } else r

/-- UPDATE webhooks SET state = s WHERE p — returns the updated table and the
rows-affected count that sqlx reports. -/
def updateWebhooks (t : List WebhookRow) (p : WebhookRow → Bool) (s : TState) :
    List WebhookRow × Nat :=
  (t.map (setStateW p s), (t.filter p).length)

/-- UPDATE hashes SET state = s WHERE p. -/
def updateHashes (t : List HashRow) (p : HashRow → Bool) (s : TState) :
    List HashRow × Nat :=
  (t.map (setStateH p s), (t.filter p).length)

/-- DELETE FROM webhooks WHERE p — updated table and rows affected. -/
def deleteWebhooks (t : List WebhookRow) (p : WebhookRow → Bool) :
    List WebhookRow × Nat :=
  (t.filter (fun r => !(p r)), (t.filter p).length)

/-- DELETE FROM hashes WHERE p. -/
def deleteHashes (t : List HashRow) (p : HashRow → Bool) :
    List HashRow × Nat :=
  (t.filter (fun r => !(p r)), (t.filter p).length)

/-- The WHERE clause of the claim update (worker.rs:73-75):
`WHERE id = $1 AND state = 'todo'`. -/
def claimPredW (i : String) (r : WebhookRow) : Bool :=
  r.id == i && r.state == TState.todo

/-- The WHERE clause of the hash claim update (worker.rs:253-255). -/
def claimPredH (i : String) (r : HashRow) : Bool :=
  r.id == i && r.state == TState.todo

/-- The atomic conditional claim on the webhooks table (worker.rs:72-79):
UPDATE webhooks SET state = 'in_progress' WHERE id = $1 AND state = 'todo'. -/
def claimWebhook (t : List WebhookRow) (i : String) : List WebhookRow × Nat :=
  updateWebhooks t (claimPredW i) TState.in_progress

/-- The atomic conditional claim on the hashes table (worker.rs:252-259). -/
def claimHash (t : List HashRow) (i : String) : List HashRow × Nat :=
  updateHashes t (claimPredH i) TState.in_progress

/-- The terminal write of the webhook executor (worker.rs:137-142 and
worker.rs:175-180): UPDATE webhooks SET state = s WHERE id = $1 — the WHERE
clause names the id only, no state condition. -/
def finalizeWebhook (t : List WebhookRow) (i : String) (s : TState) :
    List WebhookRow × Nat :=
  updateWebhooks t (fun r => r.id == i) s

/-- The terminal write of the hash executor (worker.rs:313-318 and
worker.rs:352-357): UPDATE hashes SET state = s WHERE id = $1. -/
def finalizeHash (t : List HashRow) (i : String) (s : TState) :
    List HashRow × Nat :=
  updateHashes t (fun r => r.id == i) s

/-- The rows-affected counts observed by `n` executions of the webhook claim
update for the same id, run one after the other: SQLite serializes conflicting
writers (worker.rs:64-70), so any concurrent interleaving of the claim step is
some such serial order. -/
def claimSeqWebhook (t : List WebhookRow) (i : String) : Nat → List Nat
  | 0 => []
  | n + 1 => (claimWebhook t i).2 :: claimSeqWebhook (claimWebhook t i).1 i n

/-- The rows-affected counts observed by `n` serialized hash claim updates. -/
def claimSeqHash (t : List HashRow) (i : String) : Nat → List Nat
  | 0 => []
  | n + 1 => (claimHash t i).2 :: claimSeqHash (claimHash t i).1 i n

/-- The mirror of struct WorkerWebhook (worker.rs:6-12). -/
structure WorkerWebhook where
  id : String
  execution_time : String
  url : String
  body : String
deriving DecidableEq

/-- The mirror of struct WorkerHash (worker.rs:14-19). -/
structure WorkerHash where
  id : String
  execution_time : String
  secret : String
deriving DecidableEq

/-- The retry loop of handle_webhook (worker.rs:104-126).  The Rust loop runs
while `res.is_err() && tries <= 5`; since `tries` only grows, `left = 6 - tries`
strictly decreases and the recursion below is structural on it (initial call:
left = 5, tries = 1, backoff = 1, res = result of the first attempt).
`send k` is the transport outcome of the k-th POST attempt: `some status` when
any HTTP response was received, `none` on a transport/connection error.
Returns the final `res`, the final `tries` (the number of attempts issued) and
the list of back-off sleeps performed, in milliseconds. -/
def retryLoop (send : Nat → Option Nat) :
    Nat → Option Nat → Nat → Nat → Option Nat × Nat × List Nat
  | 0, res, tries, _ => (res, tries, [])
  | left + 1, res, tries, backoff =>
    match res with
    | some r => (some r, tries, [])
    | none =>
      let next := retryLoop send left (send (tries + 1)) (tries + 1) (backoff * 2)
      (next.1, next.2.1, 100 * backoff :: next.2.2)

/-- The back-off sleeps `100*b, 100*2b, ...` of `l` consecutive failing
iterations of the retry loop. -/
def backoffSleeps (b : Nat) : Nat → List Nat
  | 0 => []
  | l + 1 => 100 * b :: backoffSleeps (b * 2) l

/-- Everything observable about one run of the webhook executor. -/
structure WebhookRun where
  db : Db
  claimRows : Option Nat
  httpAttempts : Nat
  sleeps : List Nat
deriving DecidableEq

/-- handle_webhook (worker.rs:25-199).  `parseOk` is whether chrono parses
task.execution_time (worker.rs:29; the parser itself is not modelled); on
parse failure the task is defensively marked failed from the todo state,
bypassing the claim (worker.rs:38-56).  The pre-deadline wait (worker.rs:60-62)
only sleeps and changes no state.  After the claim (worker.rs:72-99) the
executor proceeds only on rows_affected = 1; it then issues the first POST
(worker.rs:106-110), runs the retry loop, and finalizes `done` on any received
response and `failed` when the last result is still a transport error
(worker.rs:128-198). -/
def handle_webhook (db : Db) (task : WorkerWebhook) (parseOk : Bool)
    (send : Nat → Option Nat) : WebhookRun :=
  if parseOk then
    if (claimWebhook db.webhooks task.id).2 ≠ 1 then
      { db := { db with webhooks := (claimWebhook db.webhooks task.id).1 },
        claimRows := some (claimWebhook db.webhooks task.id).2,
        httpAttempts := 0, sleeps := [] }
    else
      match (retryLoop send 5 (send 1) 1 1).1 with
      | some _ =>
        { db := { db with
            webhooks := (finalizeWebhook (claimWebhook db.webhooks task.id).1
              task.id TState.done).1 },
          claimRows := some (claimWebhook db.webhooks task.id).2,
          httpAttempts := (retryLoop send 5 (send 1) 1 1).2.1,
          sleeps := (retryLoop send 5 (send 1) 1 1).2.2 }
      | none =>
        { db := { db with
            webhooks := (finalizeWebhook (claimWebhook db.webhooks task.id).1
              task.id TState.failed).1 },
          claimRows := some (claimWebhook db.webhooks task.id).2,
          httpAttempts := (retryLoop send 5 (send 1) 1 1).2.1,
          sleeps := (retryLoop send 5 (send 1) 1 1).2.2 }
  else
    { db := { db with
        webhooks := (updateWebhooks db.webhooks (claimPredW task.id) TState.failed).1 },
      claimRows := none, httpAttempts := 0, sleeps := [] }

/-- Outcome of the offloaded PBKDF2 computation, as the code can observe it. -/
inductive HashComputation where
  | pbkdf2Ok (hash : String)
  | pbkdf2Err (errMsg : String)
  | joinErr
deriving DecidableEq

/-- worker.rs:285-301: the spawn_blocking closure returns a String in BOTH
branches of hash_password_customized — `Ok(h) => h.to_string()` and
`Err(e) => e.to_string()` — so a PBKDF2-level error surfaces as a normal
string result; only the join of the blocking task itself (worker.rs:301-304)
can fail. -/
def spawnBlockingResult : HashComputation → Option String
  | .pbkdf2Ok h => some h
  | .pbkdf2Err e => some e
  | .joinErr => none

/-- Everything observable about one run of the hash executor.  `computed` is
whether the offloaded derivation was dispatched; `hashStr` is the string the
code treats as the computed hash (worker.rs:342 base64-encodes exactly this
string for display). -/
structure HashRun where
  db : Db
  claimRows : Option Nat
  computed : Bool
  hashStr : Option String
deriving DecidableEq

/-- handle_hash (worker.rs:205-376).  Same wait/claim skeleton as the webhook
executor; on ownership it runs the offloaded PBKDF2 computation once
(worker.rs:284-301, no retry), finalizes `failed` when the join fails
(worker.rs:304-339) and `done` when the closure returned a string
(worker.rs:342-375). -/
def handle_hash (db : Db) (task : WorkerHash) (parseOk : Bool)
    (comp : HashComputation) : HashRun :=
  if parseOk then
    if (claimHash db.hashes task.id).2 ≠ 1 then
      { db := { db with hashes := (claimHash db.hashes task.id).1 },
        claimRows := some (claimHash db.hashes task.id).2,
        computed := false, hashStr := none }
    else
      match spawnBlockingResult comp with
      | none =>
        { db := { db with
            hashes := (finalizeHash (claimHash db.hashes task.id).1 task.id TState.failed).1 },
          claimRows := some (claimHash db.hashes task.id).2,
          computed := true, hashStr := none }
      | some h =>
        { db := { db with
            hashes := (finalizeHash (claimHash db.hashes task.id).1 task.id TState.done).1 },
          claimRows := some (claimHash db.hashes task.id).2,
          computed := true, hashStr := some h }
  else
    { db := { db with
        hashes := (updateHashes db.hashes (claimPredH task.id) TState.failed).1 },
      claimRows := none, computed := false, hashStr := none }

/-- db.rs:173-175 and db.rs:207-209: the delay handed to the dispatcher, in
milliseconds.  The Rust computes `u64::try_from(diff_ms).unwrap_or(100)` on the
signed millisecond difference `execution_time - now`: the conversion fails, and
the 100 ms fallback applies, exactly when the difference is negative; any
nonnegative difference — including one below 100 ms, even zero — is used
unchanged. -/
def dur_from_now_millis (diff : Int) : Nat :=
  if 0 ≤ diff then diff.toNat else 100

/-- One iteration of the recovery loop over todo webhook rows
(db.rs:166-191): parse the stored execution_time (the `?` on failure aborts
the whole pass) and send the (delay, snapshot) pair. -/
def reinsertWebhookRows (parse : String → Option Int) (now : Int) :
    List WebhookRow → Option (List (Nat × Task))
  | [] => some []
  | r :: rest =>
    match parse r.execution_time with
    | none => none
    | some t =>
      match reinsertWebhookRows parse now rest with
      | none => none
      | some tail => some ((dur_from_now_millis (t - now), Task.webhook r) :: tail)

/-- One iteration of the recovery loop over todo hash rows (db.rs:204-222). -/
def reinsertHashRows (parse : String → Option Int) (now : Int) :
    List HashRow → Option (List (Nat × Task))
  | [] => some []
  | r :: rest =>
    match parse r.execution_time with
    | none => none
    | some t =>
      match reinsertHashRows parse now rest with
      | none => none
      | some tail => some ((dur_from_now_millis (t - now), Task.hash r) :: tail)

/-- reinsert_tasks (db.rs:151-225): select the todo rows of both tables and
send a (delay, snapshot) pair for each; `none` is the fatal DbError abort.
`parse` stands for chrono::DateTime::parse_from_rfc3339, as a map to a
millisecond timestamp; the ORDER BY execution_time ASC of the two SELECTs only
orders the sends and is not modelled — rows are processed in table order. -/
def reinsert_tasks (db : Db) (parse : String → Option Int) (now : Int) :
    Option (List (Nat × Task)) :=
  match reinsertWebhookRows parse now
      (db.webhooks.filter (fun r => r.state == TState.todo)) with
  | none => none
  | some ws =>
    match reinsertHashRows parse now
        (db.hashes.filter (fun r => r.state == TState.todo)) with
    | none => none
    | some hs => some (ws ++ hs)

/-- The scheduling-relevant effect of init_open_db (db.rs:63-142): the schema
statements create empty tables and indexes and change no rows; the two healing
updates (db.rs:123-139) reset every row in state in_progress, in both tables,
back to todo. -/
def init_open_db (db : Db) : Db :=
  { webhooks := (updateWebhooks db.webhooks (fun r => r.state == TState.in_progress) TState.todo).1,
    hashes := (updateHashes db.hashes (fun r => r.state == TState.in_progress) TState.todo).1 }

/-- The startup statements of main (main.rs:86-142), in program order. -/
inductive StartupStep where
  | initOpenDbStep
  | spawnWorkerStep
  | reinsertTasksStep
  | serveApiStep
deriving DecidableEq, BEq

/-- The order in which main executes its startup statements: init_open_db
(main.rs:86, including the healing resets), spawning the dispatcher loop
(main.rs:100), reinsert_tasks (main.rs:104), and only then binding and serving
the HTTP API (main.rs:110-142). -/
def mainStartupSequence : List StartupStep :=
  [.initOpenDbStep, .spawnWorkerStep, .reinsertTasksStep, .serveApiStep]

/-- The database-to-queue data flow of main: reinsert_tasks (main.rs:104) runs
against the pool returned by init_open_db (main.rs:86), i.e. against the
healed state. -/
def startupReinserted (db : Db) (parse : String → Option Int) (now : Int) :
    Option (List (Nat × Task)) :=
  reinsert_tasks (init_open_db db) parse now

/-- The str::starts_with test of api.rs:137, modelled as a character-list
prefix test (the patterns are ASCII, where byte prefix and character prefix
coincide). -/
def strStartsWith (s pre : String) : Bool := pre.data.isPrefixOf s.data

/-- The two validation failures of api.rs:67-70. -/
inductive ApiTimeError where
  | notRfc3339
  | inPast
deriving DecidableEq

/-- The Display text of each ApiTimeError (api.rs:86-89 and api.rs:96-98). -/
def apiTimeErrorMsg : ApiTimeError → String
  | .notRfc3339 =>
      "field 'execution_time' must contain a valid RFC 3339 datetime, including timezone, e.g.: '2026-01-30T15:30:00.123456789-06:00'"
  | .inPast => "field 'execution_time' must contain a datetime that lies in the future"

/-- validate_execution_time (api.rs:82-102): parse the datetime, then reject it
unless it lies strictly in the future (the code tests
`num_milliseconds() <= 0`, so strictness is at millisecond granularity). -/
def validate_execution_time (parse : String → Option Int) (now : Int)
    (execution_time : String) : Except ApiTimeError Int :=
  match parse execution_time with
  | none => Except.error ApiTimeError.notRfc3339
  | some t => if t - now ≤ 0 then Except.error ApiTimeError.inPast else Except.ok t

/-- The creation response body (api.rs:60-65). -/
inductive RespPostTasksNew where
  | failure (msg : String)
  | success (id : String)
deriving DecidableEq

/-- Everything observable about one creation request: the HTTP status and body,
the database afterwards, and the (delay, snapshot) pair sent to the
dispatcher, if any. -/
structure CreateResult where
  status : Nat
  resp : RespPostTasksNew
  db : Db
  sent : Option (Nat × Task)
deriving DecidableEq

/-- post_tasks_new_webhook (api.rs:106-244).  `parse`/`render` stand for
chrono parsing and to_rfc3339 re-rendering; `now1` is the clock at validation
(api.rs:95), `now2` the clock at the post-insert delay computation
(api.rs:201); `newId` is the generated UUIDv7; `sendOk` is whether the channel
send to the dispatcher succeeds.  Steps, in source order: validation
(api.rs:113-123), empty-url check (api.rs:127-134), the http:// prefix
normalization (api.rs:137-141), empty-body check (api.rs:144-151), the INSERT
(api.rs:158-198, unique violation when the id already exists), the delay
computation whose u64 conversion fails exactly when the difference has become
negative (api.rs:200-211), the channel send (api.rs:213-238), and the 201
success (api.rs:240-243). -/
def post_tasks_new_webhook (db : Db) (parse : String → Option Int)
    (render : Int → String) (now1 now2 : Int) (newId : String) (sendOk : Bool)
    (execution_time url body : String) : CreateResult :=
  match validate_execution_time parse now1 execution_time with
  | Except.error e =>
    { status := 400, resp := .failure ("Malformed 'webhook': " ++ apiTimeErrorMsg e),
      db := db, sent := none }
  | Except.ok t =>
    if url == "" then
      { status := 400, resp := .failure "Malformed 'webhook': field 'url' must contain a URL",
        db := db, sent := none }
    else
      let url2 := if strStartsWith url "http://" || strStartsWith url "https://"
        then url else "http://" ++ url
      if body == "" then
        { status := 400,
          resp := .failure "Malformed 'webhook': field 'body' must contain a request body",
          db := db, sent := none }
      else if db.webhooks.any (fun r => r.id == newId) then
        { status := 500, resp := .failure "Task with generated ID already exists in database",
          db := db, sent := none }
      else
        let row : WebhookRow :=
          { id := newId, state := TState.todo, execution_time := render t,
            url := url2, body := body }
        let db1 : Db := { db with webhooks := db.webhooks ++ [row] }
        if t - now2 < 0 then
          { status := 400,
            resp := .failure
              "Malformed 'webhook': field 'execution_time' must contain a datetime that lies in the future",
            db := db1, sent := none }
        else if sendOk then
          { status := 201, resp := .success newId, db := db1,
            sent := some ((t - now2).toNat, Task.webhook row) }
        else
          { status := 500, resp := .failure "Sending new webhook task to delay queue failed",
            db := db1, sent := none }

/-- post_tasks_new_hash (api.rs:248-363): validation (api.rs:254-264),
empty-secret check (api.rs:268-275), the INSERT (api.rs:282-321), the delay
computation (api.rs:323-334), the channel send (api.rs:336-357) and the 201
success (api.rs:359-362). -/
def post_tasks_new_hash (db : Db) (parse : String → Option Int)
    (render : Int → String) (now1 now2 : Int) (newId : String) (sendOk : Bool)
    (execution_time secret : String) : CreateResult :=
  match validate_execution_time parse now1 execution_time with
  | Except.error e =>
    { status := 400, resp := .failure ("Malformed 'hash': " ++ apiTimeErrorMsg e),
      db := db, sent := none }
  | Except.ok t =>
    if secret == "" then
      { status := 400, resp := .failure "Malformed 'hash': field 'secret' must contain a string",
        db := db, sent := none }
    else if db.hashes.any (fun r => r.id == newId) then
      { status := 500, resp := .failure "Task with generated ID already exists in database",
        db := db, sent := none }
    else
      let row : HashRow :=
        { id := newId, state := TState.todo, execution_time := render t, secret := secret }
      let db1 : Db := { db with hashes := db.hashes ++ [row] }
      if t - now2 < 0 then
        { status := 400,
          resp := .failure
            "Malformed 'hash': field 'execution_time' must contain a datetime that lies in the future",
          db := db1, sent := none }
      else if sendOk then
        { status := 201, resp := .success newId, db := db1,
          sent := some ((t - now2).toNat, Task.hash row) }
      else
        { status := 500, resp := .failure "Sending new hash task to delay queue failed",
          db := db1, sent := none }

/-- The delete response body (api.rs:660-665). -/
inductive RespDeleteTask where
  | failure (msg : String)
  | success
deriving DecidableEq

/-- Everything observable about one delete request. -/
structure DeleteResult where
  status : Nat
  resp : RespDeleteTask
  db : Db
deriving DecidableEq

/-- The WHERE clause of both DELETE statements (api.rs:678-679 and
api.rs:709-710): `WHERE id = $1 AND state != 'in_progress'`. -/
def deletePredW (i : String) (r : WebhookRow) : Bool :=
  r.id == i && !(r.state == TState.in_progress)

/-- The hashes-table twin of `deletePredW`. -/
def deletePredH (i : String) (r : HashRow) : Bool :=
  r.id == i && !(r.state == TState.in_progress)

/-- delete_task (api.rs:673-746): DELETE from webhooks guarded by
state != 'in_progress'; on zero rows affected the same DELETE against hashes;
on zero rows affected again, a 400 does-not-exist failure. -/
def delete_task (db : Db) (i : String) : DeleteResult :=
  if 1 ≤ (deleteWebhooks db.webhooks (deletePredW i)).2 then
    { status := 204, resp := .success,
      db := { db with webhooks := (deleteWebhooks db.webhooks (deletePredW i)).1 } }
  else if 1 ≤ (deleteHashes db.hashes (deletePredH i)).2 then
    { status := 204, resp := .success,
      db := { webhooks := (deleteWebhooks db.webhooks (deletePredW i)).1,
              hashes := (deleteHashes db.hashes (deletePredH i)).1 } }
  else
    { status := 400, resp := .failure ("Task '" ++ i ++ "' does not exist"),
      db := { webhooks := (deleteWebhooks db.webhooks (deletePredW i)).1,
              hashes := (deleteHashes db.hashes (deletePredH i)).1 } }

/-- The row and table fixtures used by the concrete instances below. -/
def exWebhookRow : WebhookRow :=
  { id := "w1", state := TState.todo, execution_time := "2026-01-01T00:00:00+00:00",
    url := "http://example.test/hook", body := "ping" }

/-- A todo hash row fixture. -/
def exHashRow : HashRow :=
  { id := "h1", state := TState.todo, execution_time := "2026-01-01T00:00:00+00:00",
    secret := "s3cr3t" }

/-- A store holding one todo row of each kind. -/
def exDb : Db := { webhooks := [exWebhookRow], hashes := [exHashRow] }

/-- The worker snapshot of `exWebhookRow`. -/
def exWorkerWebhook : WorkerWebhook :=
  { id := "w1", execution_time := "2026-01-01T00:00:00+00:00",
    url := "http://example.test/hook", body := "ping" }

/-- The worker snapshot of `exHashRow`. -/
def exWorkerHash : WorkerHash :=
  { id := "h1", execution_time := "2026-01-01T00:00:00+00:00", secret := "s3cr3t" }

/-- A parser fixture: the fixture timestamp reads as millisecond instant 100. -/
def exParse : String → Option Int :=
  fun s => if s == "2026-01-01T00:00:00+00:00" then some 100 else none

/-- A renderer fixture inverting `exParse` on the fixture instant. -/
def exRender : Int → String := fun _ => "2026-01-01T00:00:00+00:00"

/-- The webhook fixture already moved to failed by another actor. -/
def exRowFailedW : WebhookRow := { exWebhookRow with state := TState.failed }

/-- The hash fixture already moved to failed by another actor. -/
def exRowFailedH : HashRow := { exHashRow with state := TState.failed }

/-- A store whose only row of id w1 is in_progress. -/
def exDbInProg : Db :=
  { webhooks := [{ exWebhookRow with state := TState.in_progress }], hashes := [] }

/-- The empty store. -/
def exDbEmpty : Db := { webhooks := [], hashes := [] }

/-- Mapping a function that moves no member of a list over it is the
identity. -/
theorem map_id_of_mem {α : Type} (f : α → α) :
    ∀ t : List α, (∀ r ∈ t, f r = r) → t.map f = t
  | [], _ => rfl
  | a :: l, h => by
    rw [List.map_cons, h a (List.mem_cons_self a l),
      map_id_of_mem f l (fun r hr => h r (List.mem_cons_of_mem a hr))]

/-- An UPDATE never changes a row's id. -/
theorem setStateW_id (p : WebhookRow → Bool) (s : TState) (r : WebhookRow) :
    (setStateW p s r).id = r.id := by
  unfold setStateW; split <;> rfl

/-- An UPDATE on the hashes table never changes a row's id. -/
theorem setStateH_id (p : HashRow → Bool) (s : TState) (r : HashRow) :
    (setStateH p s r).id = r.id := by
  unfold setStateH; split <;> rfl

/-- An UPDATE whose WHERE clause matches no row leaves the webhooks table
unchanged. -/
theorem updateWebhooks_noop {t : List WebhookRow} {p : WebhookRow → Bool}
    (s : TState) (h : ∀ r ∈ t, p r = false) : (updateWebhooks t p s).1 = t := by
  unfold updateWebhooks setStateW
  exact map_id_of_mem _ t (fun r hr => by simp [h r hr])

/-- An UPDATE whose WHERE clause matches no row leaves the hashes table
unchanged. -/
theorem updateHashes_noop {t : List HashRow} {p : HashRow → Bool}
    (s : TState) (h : ∀ r ∈ t, p r = false) : (updateHashes t p s).1 = t := by
  unfold updateHashes setStateH
  exact map_id_of_mem _ t (fun r hr => by simp [h r hr])

/-- After the claim update ran, no row still matches the claim's WHERE clause:
every row that was (id, todo) is now in_progress, every other row was not
(id, todo) to begin with. -/
theorem claimPredW_after (i : String) (r : WebhookRow) :
    claimPredW i (setStateW (claimPredW i) TState.in_progress r) = false := by
  unfold setStateW
  by_cases h : claimPredW i r = true
  · simp only [h, if_pos]
    simp [claimPredW]
  · simp only [Bool.not_eq_true] at h
    simp [h]

/-- The hashes-table twin of `claimPredW_after`. -/
theorem claimPredH_after (i : String) (r : HashRow) :
    claimPredH i (setStateH (claimPredH i) TState.in_progress r) = false := by
  unfold setStateH
  by_cases h : claimPredH i r = true
  · simp only [h, if_pos]
    simp [claimPredH]
  · simp only [Bool.not_eq_true] at h
    simp [h]

/-- No row of a claimed webhooks table matches the claim predicate. -/
theorem claimWebhook_post (t : List WebhookRow) (i : String) :
    ∀ r ∈ (claimWebhook t i).1, claimPredW i r = false := by
  intro r hr
  unfold claimWebhook updateWebhooks at hr
  simp only [List.mem_map] at hr
  obtain ⟨r0, _, rfl⟩ := hr
  exact claimPredW_after i r0

/-- No row of a claimed hashes table matches the claim predicate. -/
theorem claimHash_post (t : List HashRow) (i : String) :
    ∀ r ∈ (claimHash t i).1, claimPredH i r = false := by
  intro r hr
  unfold claimHash updateHashes at hr
  simp only [List.mem_map] at hr
  obtain ⟨r0, _, rfl⟩ := hr
  exact claimPredH_after i r0

/-- A filter by a predicate false on every member has length zero. -/
theorem filter_length_zero {α : Type} {t : List α} {p : α → Bool}
    (h : ∀ r ∈ t, p r = false) : (t.filter p).length = 0 := by
  rw [List.length_eq_zero, List.filter_eq_nil_iff]
  intro a ha
  simp [h a ha]

/-- Once no row matches the claim predicate any further serialized claim
attempts all observe zero rows affected. -/
theorem claimSeqWebhook_zeros (i : String) :
    ∀ (n : Nat) (t : List WebhookRow), (∀ r ∈ t, claimPredW i r = false) →
      claimSeqWebhook t i n = List.replicate n 0
  | 0, _, _ => rfl
  | n + 1, t, h => by
    have hfst : (claimWebhook t i).1 = t := updateWebhooks_noop _ h
    have hsnd : (claimWebhook t i).2 = 0 := filter_length_zero h
    rw [claimSeqWebhook, hsnd, hfst, claimSeqWebhook_zeros i n t h, List.replicate_succ]

/-- The hashes-table twin of `claimSeqWebhook_zeros`. -/
theorem claimSeqHash_zeros (i : String) :
    ∀ (n : Nat) (t : List HashRow), (∀ r ∈ t, claimPredH i r = false) →
      claimSeqHash t i n = List.replicate n 0
  | 0, _, _ => rfl
  | n + 1, t, h => by
    have hfst : (claimHash t i).1 = t := updateHashes_noop _ h
    have hsnd : (claimHash t i).2 = 0 := filter_length_zero h
    rw [claimSeqHash, hsnd, hfst, claimSeqHash_zeros i n t h, List.replicate_succ]

/-- The retry loop never forgets attempts already made. -/
theorem retryLoop_tries_ge (send : Nat → Option Nat) :
    ∀ (left : Nat) (res : Option Nat) (tries backoff : Nat),
      tries ≤ (retryLoop send left res tries backoff).2.1
  | 0, _, _, _ => Nat.le_refl _
  | left + 1, res, tries, backoff => by
    cases res with
    | some r => exact Nat.le_refl _
    | none =>
      have h := retryLoop_tries_ge send left (send (tries + 1)) (tries + 1) (backoff * 2)
      show tries ≤ (retryLoop send left (send (tries + 1)) (tries + 1) (backoff * 2)).2.1
      omega

/-- The retry loop makes at most `left` further attempts. -/
theorem retryLoop_tries_le (send : Nat → Option Nat) :
    ∀ (left : Nat) (res : Option Nat) (tries backoff : Nat),
      (retryLoop send left res tries backoff).2.1 ≤ tries + left
  | 0, _, _, _ => Nat.le_refl _
  | left + 1, res, tries, backoff => by
    cases res with
    | some r => exact Nat.le_add_right _ _
    | none =>
      have h := retryLoop_tries_le send left (send (tries + 1)) (tries + 1) (backoff * 2)
      show (retryLoop send left (send (tries + 1)) (tries + 1) (backoff * 2)).2.1 ≤ tries + (left + 1)
      omega

/-- When the transport fails on every attempt the loop runs to exhaustion:
all `left` further attempts are made and every back-off sleep is performed. -/
theorem retryLoop_all_fail (send : Nat → Option Nat) (hall : ∀ k, send k = none) :
    ∀ (left tries backoff : Nat),
      retryLoop send left none tries backoff
        = (none, tries + left, backoffSleeps backoff left)
  | 0, tries, backoff => rfl
  | left + 1, tries, backoff => by
    show (let next := retryLoop send left (send (tries + 1)) (tries + 1) (backoff * 2);
      ((next.1, next.2.1, 100 * backoff :: next.2.2) : Option Nat × Nat × List Nat))
        = (none, tries + (left + 1), backoffSleeps backoff (left + 1))
    rw [hall (tries + 1), retryLoop_all_fail send hall left (tries + 1) (backoff * 2)]
    show ((none, tries + 1 + left, 100 * backoff :: backoffSleeps (backoff * 2) left)
        : Option Nat × Nat × List Nat)
      = (none, tries + (left + 1), backoffSleeps backoff (left + 1))
    rw [backoffSleeps]
    congr 2
    omega

/-- The loop ends with a received response exactly when the initial attempt
received one or some later attempt within its budget does. -/
theorem retryLoop_isSome_iff (send : Nat → Option Nat) :
    ∀ (left : Nat) (res : Option Nat) (tries backoff : Nat),
      (retryLoop send left res tries backoff).1.isSome = true ↔
        (res.isSome = true
          ∨ ∃ k, tries + 1 ≤ k ∧ k ≤ tries + left ∧ (send k).isSome = true)
  | 0, res, tries, backoff => by
    constructor
    · intro h
      exact Or.inl h
    · rintro (h | ⟨k, hk1, hk2, _⟩)
      · exact h
      · omega
  | left + 1, res, tries, backoff => by
    cases res with
    | some r =>
      constructor
      · intro _
        exact Or.inl rfl
      · intro _
        rfl
    | none =>
      have ih := retryLoop_isSome_iff send left (send (tries + 1)) (tries + 1) (backoff * 2)
      show (retryLoop send left (send (tries + 1)) (tries + 1) (backoff * 2)).1.isSome = true ↔ _
      rw [ih]
      constructor
      · rintro (h | ⟨k, hk1, hk2, hks⟩)
        · exact Or.inr ⟨tries + 1, by omega, by omega, h⟩
        · exact Or.inr ⟨k, by omega, by omega, hks⟩
      · rintro (h | ⟨k, hk1, hk2, hks⟩)
        · simp at h
        · by_cases hk : k = tries + 1
          · subst hk
            exact Or.inl hks
          · exact Or.inr ⟨k, by omega, by omega, hks⟩

/-- C1: for a task id whose single row is in state todo, any serialization of
n ≥ 2 concurrent claim attempts (SQLite serializes the conditional updates)
has exactly one attempt observe one row affected and all others observe zero;
an executor that observes zero rows affected returns at once, issuing no HTTP
attempt (webhook) and dispatching no computation (hash) and leaving the store
unchanged, while the executor that observes one row affected proceeds to
perform the action.  Stated for both handle_webhook and handle_hash. -/
theorem claim_protocol_single_winner
    (tw : List WebhookRow) (th : List HashRow) (iw ih : String) (n : Nat)
    (hw : (tw.filter (claimPredW iw)).length = 1)
    (hh : (th.filter (claimPredH ih)).length = 1)
    (hn : 2 ≤ n) :
    (claimSeqWebhook tw iw n = 1 :: List.replicate (n - 1) 0
      ∧ claimSeqHash th ih n = 1 :: List.replicate (n - 1) 0)
    ∧ (∀ (db : Db) (task : WorkerWebhook) (parseOk : Bool) (send : Nat → Option Nat),
        (db.webhooks.filter (claimPredW task.id)).length = 0 →
          (handle_webhook db task parseOk send).db = db
            ∧ (handle_webhook db task parseOk send).httpAttempts = 0)
    ∧ (∀ (db : Db) (task : WorkerHash) (parseOk : Bool) (comp : HashComputation),
        (db.hashes.filter (claimPredH task.id)).length = 0 →
          (handle_hash db task parseOk comp).db = db
            ∧ (handle_hash db task parseOk comp).computed = false)
    ∧ (∀ (db : Db) (task : WorkerWebhook) (send : Nat → Option Nat),
        (db.webhooks.filter (claimPredW task.id)).length = 1 →
          (handle_webhook db task true send).claimRows = some 1
            ∧ 1 ≤ (handle_webhook db task true send).httpAttempts)
    ∧ (∀ (db : Db) (task : WorkerHash) (comp : HashComputation),
        (db.hashes.filter (claimPredH task.id)).length = 1 →
          (handle_hash db task true comp).claimRows = some 1
            ∧ (handle_hash db task true comp).computed = true) := by
  obtain ⟨m, rfl⟩ : ∃ m, n = m + 1 := ⟨n - 1, by omega⟩
  refine ⟨⟨?_, ?_⟩, ?_, ?_, ?_, ?_⟩
  · rw [claimSeqWebhook]
    have h2 : (claimWebhook tw iw).2 = 1 := hw
    rw [h2, claimSeqWebhook_zeros iw m (claimWebhook tw iw).1 (claimWebhook_post tw iw)]
    simp
  · rw [claimSeqHash]
    have h2 : (claimHash th ih).2 = 1 := hh
    rw [h2, claimSeqHash_zeros ih m (claimHash th ih).1 (claimHash_post th ih)]
    simp
  · intro db task parseOk send h0
    have hfalse : ∀ r ∈ db.webhooks, claimPredW task.id r = false := by
      have h := List.filter_eq_nil_iff.mp (List.length_eq_zero.mp h0)
      intro r hr
      simpa using h r hr
    cases parseOk with
    | false =>
      refine ⟨?_, rfl⟩
      show ({ db with
        webhooks := (updateWebhooks db.webhooks (claimPredW task.id) TState.failed).1 } : Db) = db
      rw [updateWebhooks_noop _ hfalse]
    | true =>
      have h2 : (claimWebhook db.webhooks task.id).2 = 0 := h0
      unfold handle_webhook
      rw [if_pos rfl, h2]
      norm_num
      show ({ db with webhooks := (claimWebhook db.webhooks task.id).1 } : Db) = db
      show ({ db with
        webhooks := (updateWebhooks db.webhooks (claimPredW task.id) TState.in_progress).1 } : Db)
          = db
      rw [updateWebhooks_noop _ hfalse]
  · intro db task parseOk comp h0
    have hfalse : ∀ r ∈ db.hashes, claimPredH task.id r = false := by
      have h := List.filter_eq_nil_iff.mp (List.length_eq_zero.mp h0)
      intro r hr
      simpa using h r hr
    cases parseOk with
    | false =>
      refine ⟨?_, rfl⟩
      show ({ db with
        hashes := (updateHashes db.hashes (claimPredH task.id) TState.failed).1 } : Db) = db
      rw [updateHashes_noop _ hfalse]
    | true =>
      have h2 : (claimHash db.hashes task.id).2 = 0 := h0
      unfold handle_hash
      rw [if_pos rfl, h2]
      norm_num
      show ({ db with hashes := (claimHash db.hashes task.id).1 } : Db) = db
      show ({ db with
        hashes := (updateHashes db.hashes (claimPredH task.id) TState.in_progress).1 } : Db)
          = db
      rw [updateHashes_noop _ hfalse]
  · intro db task send h1
    have h2 : (claimWebhook db.webhooks task.id).2 = 1 := h1
    unfold handle_webhook
    rw [if_pos rfl, h2]
    norm_num
    cases (retryLoop send 5 (send 1) 1 1).1 with
    | some v => exact ⟨rfl, retryLoop_tries_ge send 5 (send 1) 1 1⟩
    | none => exact ⟨rfl, retryLoop_tries_ge send 5 (send 1) 1 1⟩
  · intro db task comp h1
    have h2 : (claimHash db.hashes task.id).2 = 1 := h1
    unfold handle_hash
    rw [if_pos rfl, h2]
    norm_num
    cases spawnBlockingResult comp with
    | some v => exact ⟨rfl, rfl⟩
    | none => exact ⟨rfl, rfl⟩

/-- C1 witness: a concrete table of one todo row per kind and two serialized
claim attempts — the first observes one row affected, the second zero. -/
theorem claim_protocol_single_winner_witness :
    (([exWebhookRow].filter (claimPredW "w1")).length = 1
      ∧ ([exHashRow].filter (claimPredH "h1")).length = 1
      ∧ 2 ≤ 2)
    ∧ (claimSeqWebhook [exWebhookRow] "w1" 2 = 1 :: List.replicate (2 - 1) 0
        ∧ claimSeqHash [exHashRow] "h1" 2 = 1 :: List.replicate (2 - 1) 0) :=
  ⟨⟨by decide, by decide, by decide⟩,
    (claim_protocol_single_winner [exWebhookRow] [exHashRow] "w1" "h1" 2
      (by decide) (by decide) (by decide)).1⟩

/-- Every row matching the id of a terminal webhook write carries the terminal
state afterwards. -/
theorem finalizeWebhook_state (t : List WebhookRow) (i : String) (s : TState) :
    ∀ r ∈ (finalizeWebhook t i s).1, r.id = i → r.state = s := by
  intro r hr hid
  unfold finalizeWebhook updateWebhooks at hr
  simp only [List.mem_map] at hr
  obtain ⟨r0, _, rfl⟩ := hr
  unfold setStateW at hid ⊢
  by_cases hp : (r0.id == i) = true
  · simp [hp]
  · simp only [hp] at hid ⊢
    simp at hid hp
    exact absurd hid hp

/-- The hashes-table twin of `finalizeWebhook_state`. -/
theorem finalizeHash_state (t : List HashRow) (i : String) (s : TState) :
    ∀ r ∈ (finalizeHash t i s).1, r.id = i → r.state = s := by
  intro r hr hid
  unfold finalizeHash updateHashes at hr
  simp only [List.mem_map] at hr
  obtain ⟨r0, _, rfl⟩ := hr
  unfold setStateH at hid ⊢
  by_cases hp : (r0.id == i) = true
  · simp [hp]
  · simp only [hp] at hid ⊢
    simp at hid hp
    exact absurd hid hp

/-- A filter has positive length exactly when some member matches. -/
theorem filter_length_pos_iff {α : Type} (t : List α) (p : α → Bool) :
    1 ≤ (t.filter p).length ↔ ∃ r ∈ t, p r = true := by
  constructor
  · intro h
    have hne : t.filter p ≠ [] := by
      intro hnil
      rw [hnil] at h
      simp at h
    obtain ⟨r, hr⟩ := List.exists_mem_of_ne_nil _ hne
    exact ⟨r, (List.mem_filter.mp hr).1, (List.mem_filter.mp hr).2⟩
  · rintro ⟨r, hr, hp⟩
    have : t.filter p ≠ [] := List.ne_nil_of_mem (List.mem_filter.mpr ⟨hr, hp⟩)
    have := List.length_pos.mpr this
    omega

/-- C2 (amended): a webhook executor that wins the claim issues at most six
POST attempts in total — the initial attempt plus up to five retries — and
when every attempt fails at the transport level it issues exactly six, with
the five inter-attempt back-off waits of 100, 200, 400, 800 and 1600 ms. -/
theorem webhook_retry_attempt_budget (db : Db) (task : WorkerWebhook)
    (send : Nat → Option Nat)
    (hclaim : (db.webhooks.filter (claimPredW task.id)).length = 1) :
    (handle_webhook db task true send).httpAttempts ≤ 6
    ∧ ((∀ k, send k = none) →
        (handle_webhook db task true send).httpAttempts = 6
        ∧ (handle_webhook db task true send).sleeps = [100, 200, 400, 800, 1600]) := by
  have h2 : (claimWebhook db.webhooks task.id).2 = 1 := hclaim
  unfold handle_webhook
  rw [if_pos rfl, h2]
  norm_num
  constructor
  · have hle := retryLoop_tries_le send 5 (send 1) 1 1
    cases (retryLoop send 5 (send 1) 1 1).1 with
    | some v =>
      show (retryLoop send 5 (send 1) 1 1).2.1 ≤ 6
      omega
    | none =>
      show (retryLoop send 5 (send 1) 1 1).2.1 ≤ 6
      omega
  · intro hall
    rw [hall 1, retryLoop_all_fail send hall 5 1 1]
    exact ⟨rfl, rfl⟩

/-- C2 witness: a concrete winning executor with an always-failing transport.  -/
theorem webhook_retry_attempt_budget_witness :
    (exDb.webhooks.filter (claimPredW exWorkerWebhook.id)).length = 1
    ∧ ((handle_webhook exDb exWorkerWebhook true (fun _ => none)).httpAttempts ≤ 6
      ∧ ((∀ k, (fun (_ : Nat) => (none : Option Nat)) k = none) →
          (handle_webhook exDb exWorkerWebhook true (fun _ => none)).httpAttempts = 6
          ∧ (handle_webhook exDb exWorkerWebhook true (fun _ => none)).sleeps
              = [100, 200, 400, 800, 1600])) :=
  ⟨by decide,
    webhook_retry_attempt_budget exDb exWorkerWebhook (fun _ => none) (by decide)⟩

/-- C2 counterexample: with the claim won and every attempt failing at the
transport level the executor issues six POST attempts, not at most five — the
final log line of the source itself reads "Attempt 6 / 5"
(worker.rs:112-126). -/
theorem webhook_retry_five_attempts_counterexample :
    (handle_webhook exDb exWorkerWebhook true (fun _ => none)).httpAttempts = 6
    ∧ ¬ ((handle_webhook exDb exWorkerWebhook true (fun _ => none)).httpAttempts ≤ 5) := by
  decide

/-- C3 (code bug): evaluation at the failing input.  When the executor wins
the claim and the PBKDF2 derivation itself fails, the spawn_blocking closure
stringifies the error (worker.rs:298, Err(e) => e.to_string()), the error text
flows down the success path as if it were the computed hash, and the task is
finalized 'done' — not 'failed' as the specification states.  Only a failed
join of the blocking task (third conjunct) reaches the 'failed' write. -/
theorem hash_derivation_failure_marked_done :
    (handle_hash exDb exWorkerHash true (HashComputation.pbkdf2Err "invalid format")).db.hashes
      = [{ id := "h1", state := TState.done,
           execution_time := "2026-01-01T00:00:00+00:00", secret := "s3cr3t" }]
    ∧ (handle_hash exDb exWorkerHash true (HashComputation.pbkdf2Err "invalid format")).hashStr
      = some "invalid format"
    ∧ (handle_hash exDb exWorkerHash true HashComputation.joinErr).db.hashes
      = [{ id := "h1", state := TState.failed,
           execution_time := "2026-01-01T00:00:00+00:00", secret := "s3cr3t" }] := by
  decide

/-- Every webhook row the recovery pass walks contributes its
(delay, snapshot) pair to the output. -/
theorem reinsertWebhookRows_mem (parse : String → Option Int) (now : Int) :
    ∀ (l : List WebhookRow) (out : List (Nat × Task)),
      reinsertWebhookRows parse now l = some out →
      ∀ r ∈ l, ∀ t, parse r.execution_time = some t →
        (dur_from_now_millis (t - now), Task.webhook r) ∈ out
  | [], _, _ => by
    intro r hr
    simp at hr
  | r0 :: rest, out, h => by
    intro r hr t hparse
    rw [reinsertWebhookRows] at h
    cases hp : parse r0.execution_time with
    | none =>
      rw [hp] at h
      exact absurd h (by simp)
    | some t0 =>
      rw [hp] at h
      cases ht : reinsertWebhookRows parse now rest with
      | none =>
        rw [ht] at h
        exact absurd h (by simp)
      | some tail =>
        rw [ht] at h
        simp only [Option.some.injEq] at h
        subst h
        rcases List.mem_cons.mp hr with hr0 | hrest
        · subst hr0
          rw [hp] at hparse
          simp only [Option.some.injEq] at hparse
          subst hparse
          exact List.mem_cons_self _ _
        · exact List.mem_cons_of_mem _
            (reinsertWebhookRows_mem parse now rest tail ht r hrest t hparse)

/-- The hashes-table twin of `reinsertWebhookRows_mem`. -/
theorem reinsertHashRows_mem (parse : String → Option Int) (now : Int) :
    ∀ (l : List HashRow) (out : List (Nat × Task)),
      reinsertHashRows parse now l = some out →
      ∀ r ∈ l, ∀ t, parse r.execution_time = some t →
        (dur_from_now_millis (t - now), Task.hash r) ∈ out
  | [], _, _ => by
    intro r hr
    simp at hr
  | r0 :: rest, out, h => by
    intro r hr t hparse
    rw [reinsertHashRows] at h
    cases hp : parse r0.execution_time with
    | none =>
      rw [hp] at h
      exact absurd h (by simp)
    | some t0 =>
      rw [hp] at h
      cases ht : reinsertHashRows parse now rest with
      | none =>
        rw [ht] at h
        exact absurd h (by simp)
      | some tail =>
        rw [ht] at h
        simp only [Option.some.injEq] at h
        subst h
        rcases List.mem_cons.mp hr with hr0 | hrest
        · subst hr0
          rw [hp] at hparse
          simp only [Option.some.injEq] at hparse
          subst hparse
          exact List.mem_cons_self _ _
        · exact List.mem_cons_of_mem _
            (reinsertHashRows_mem parse now rest tail ht r hrest t hparse)

/-- C4 (amended): for every todo row the recovery loader processes, the delay
handed to the dispatcher is execution_time − now when that difference is
nonnegative — kept as-is even below 100 ms, including exactly zero — and is
floored to 100 ms exactly when the difference is negative; in particular every
row at least one millisecond in the past is scheduled with a 100 ms delay,
never a negative one. -/
theorem recovery_delay_rule (db : Db) (parse : String → Option Int) (now : Int)
    (out : List (Nat × Task)) (h : reinsert_tasks db parse now = some out) :
    (∀ r ∈ db.webhooks, r.state = TState.todo →
      ∀ t, parse r.execution_time = some t →
        (dur_from_now_millis (t - now), Task.webhook r) ∈ out)
    ∧ (∀ r ∈ db.hashes, r.state = TState.todo →
      ∀ t, parse r.execution_time = some t →
        (dur_from_now_millis (t - now), Task.hash r) ∈ out)
    ∧ (∀ diff : Int, diff < 0 → dur_from_now_millis diff = 100)
    ∧ (∀ diff : Int, 0 ≤ diff → dur_from_now_millis diff = diff.toNat) := by
  rw [reinsert_tasks] at h
  cases hw : reinsertWebhookRows parse now
      (db.webhooks.filter (fun r => r.state == TState.todo)) with
  | none =>
    rw [hw] at h
    exact absurd h (by simp)
  | some ws =>
    rw [hw] at h
    cases hh : reinsertHashRows parse now
        (db.hashes.filter (fun r => r.state == TState.todo)) with
    | none =>
      rw [hh] at h
      exact absurd h (by simp)
    | some hs =>
      rw [hh] at h
      simp only [Option.some.injEq] at h
      subst h
      refine ⟨?_, ?_, ?_, ?_⟩
      · intro r hr hst t hparse
        have hmem : r ∈ db.webhooks.filter (fun r => r.state == TState.todo) :=
          List.mem_filter.mpr ⟨hr, by simp [hst]⟩
        exact List.mem_append_left _
          (reinsertWebhookRows_mem parse now _ ws hw r hmem t hparse)
      · intro r hr hst t hparse
        have hmem : r ∈ db.hashes.filter (fun r => r.state == TState.todo) :=
          List.mem_filter.mpr ⟨hr, by simp [hst]⟩
        exact List.mem_append_right _
          (reinsertHashRows_mem parse now _ hs hh r hmem t hparse)
      · intro diff hneg
        unfold dur_from_now_millis
        rw [if_neg (by omega)]
      · intro diff hpos
        unfold dur_from_now_millis
        rw [if_pos hpos]

/-- C4 witness: a store with one todo row of each kind, both due at instant
100 with the recovery clock at 50. -/
theorem recovery_delay_rule_witness :
    reinsert_tasks { webhooks := [exWebhookRow], hashes := [exHashRow] } exParse 50
      = some [(50, Task.webhook exWebhookRow), (50, Task.hash exHashRow)]
    ∧ ((∀ r ∈ ({ webhooks := [exWebhookRow], hashes := [exHashRow] } : Db).webhooks,
        r.state = TState.todo →
        ∀ t, exParse r.execution_time = some t →
          (dur_from_now_millis (t - 50), Task.webhook r)
            ∈ [(50, Task.webhook exWebhookRow), (50, Task.hash exHashRow)])
      ∧ (∀ r ∈ ({ webhooks := [exWebhookRow], hashes := [exHashRow] } : Db).hashes,
        r.state = TState.todo →
        ∀ t, exParse r.execution_time = some t →
          (dur_from_now_millis (t - 50), Task.hash r)
            ∈ [(50, Task.webhook exWebhookRow), (50, Task.hash exHashRow)])
      ∧ (∀ diff : Int, diff < 0 → dur_from_now_millis diff = 100)
      ∧ (∀ diff : Int, 0 ≤ diff → dur_from_now_millis diff = diff.toNat)) :=
  ⟨by decide,
    recovery_delay_rule { webhooks := [exWebhookRow], hashes := [exHashRow] } exParse 50
      [(50, Task.webhook exWebhookRow), (50, Task.hash exHashRow)] (by decide)⟩

/-- C4 counterexample: a todo row whose execution_time lies 50 ms in the
future at recovery time is handed a 50 ms delay, not
max(execution_time − now, 100 ms) = 100 ms: the u64 fallback only fires on a
negative difference (db.rs:173-175). -/
theorem recovery_delay_floor_counterexample :
    reinsert_tasks { webhooks := [exWebhookRow], hashes := [] } exParse 50
      = some [(50, Task.webhook exWebhookRow)]
    ∧ dur_from_now_millis (100 - 50) ≠ max (100 - 50) 100 := by
  decide

/-- C5 (amended): every creation request failing one of the validation-time
preconditions — unparsable execution_time, execution_time not strictly in the
future at validation time, empty url, empty body, empty secret — is rejected
with HTTP 400, nothing is persisted and nothing is enqueued.  (A request that
passes validation but whose execution time is no longer in the future at the
post-insert delay computation is rejected with the same message while its todo
row remains persisted; see the counterexample.) -/
theorem create_precondition_rejection
    (db : Db) (parse : String → Option Int) (render : Int → String)
    (now1 now2 : Int) (newId : String) (sendOk : Bool)
    (execution_time url body secret : String) :
    ((parse execution_time = none
        ∨ (∃ t, parse execution_time = some t ∧ t - now1 ≤ 0)
        ∨ url = "" ∨ body = "") →
      (post_tasks_new_webhook db parse render now1 now2 newId sendOk
          execution_time url body).status = 400
      ∧ (post_tasks_new_webhook db parse render now1 now2 newId sendOk
          execution_time url body).db = db
      ∧ (post_tasks_new_webhook db parse render now1 now2 newId sendOk
          execution_time url body).sent = none)
    ∧ ((parse execution_time = none
        ∨ (∃ t, parse execution_time = some t ∧ t - now1 ≤ 0)
        ∨ secret = "") →
      (post_tasks_new_hash db parse render now1 now2 newId sendOk
          execution_time secret).status = 400
      ∧ (post_tasks_new_hash db parse render now1 now2 newId sendOk
          execution_time secret).db = db
      ∧ (post_tasks_new_hash db parse render now1 now2 newId sendOk
          execution_time secret).sent = none) := by
  constructor
  · intro hbad
    rcases hbad with hp | ⟨t, hp, hle⟩ | hurl | hbody
    · simp [post_tasks_new_webhook, validate_execution_time, hp]
    · simp [post_tasks_new_webhook, validate_execution_time, hp, hle]
    · subst hurl
      cases hv : validate_execution_time parse now1 execution_time with
      | error e => simp [post_tasks_new_webhook, hv]
      | ok t => simp [post_tasks_new_webhook, hv]
    · subst hbody
      cases hv : validate_execution_time parse now1 execution_time with
      | error e => simp [post_tasks_new_webhook, hv]
      | ok t =>
        by_cases hu : url = ""
        · simp [post_tasks_new_webhook, hv, hu]
        · simp [post_tasks_new_webhook, hv, hu]
  · intro hbad
    rcases hbad with hp | ⟨t, hp, hle⟩ | hsec
    · simp [post_tasks_new_hash, validate_execution_time, hp]
    · simp [post_tasks_new_hash, validate_execution_time, hp, hle]
    · subst hsec
      cases hv : validate_execution_time parse now1 execution_time with
      | error e => simp [post_tasks_new_hash, hv]
      | ok t => simp [post_tasks_new_hash, hv]

/-- C5 witness: a webhook request with an empty url and a hash request with an
empty secret are both rejected with nothing persisted and nothing enqueued. -/
theorem create_precondition_rejection_witness :
    ((post_tasks_new_webhook exDb exParse exRender 0 0 "id1" true "x" "" "ping").status = 400
      ∧ (post_tasks_new_webhook exDb exParse exRender 0 0 "id1" true "x" "" "ping").db = exDb
      ∧ (post_tasks_new_webhook exDb exParse exRender 0 0 "id1" true "x" "" "ping").sent = none)
    ∧ ((post_tasks_new_hash exDb exParse exRender 0 0 "id1" true "x" "").status = 400
      ∧ (post_tasks_new_hash exDb exParse exRender 0 0 "id1" true "x" "").db = exDb
      ∧ (post_tasks_new_hash exDb exParse exRender 0 0 "id1" true "x" "").sent = none) :=
  ⟨(create_precondition_rejection exDb exParse exRender 0 0 "id1" true "x" "" "ping" "").1
      (Or.inr (Or.inr (Or.inl rfl))),
    (create_precondition_rejection exDb exParse exRender 0 0 "id1" true "x" "" "ping" "").2
      (Or.inr (Or.inr rfl))⟩

/-- C5 counterexample: a request that is valid at validation time (1 ms in the
future) but whose execution time has passed by the post-insert delay
computation is rejected with the very not-in-the-future precondition response
(HTTP 400), yet its todo row has been persisted; nothing is enqueued
(api.rs:158-211). -/
theorem create_reject_persists_counterexample :
    (post_tasks_new_webhook { webhooks := [], hashes := [] } exParse exRender 99 101
        "id1" true "2026-01-01T00:00:00+00:00" "example.test/hook" "ping").status = 400
    ∧ (post_tasks_new_webhook { webhooks := [], hashes := [] } exParse exRender 99 101
        "id1" true "2026-01-01T00:00:00+00:00" "example.test/hook" "ping").resp
      = RespPostTasksNew.failure
          "Malformed 'webhook': field 'execution_time' must contain a datetime that lies in the future"
    ∧ (post_tasks_new_webhook { webhooks := [], hashes := [] } exParse exRender 99 101
        "id1" true "2026-01-01T00:00:00+00:00" "example.test/hook" "ping").db
      = { webhooks := [{ id := "id1"
                         state := TState.todo
                         execution_time := "2026-01-01T00:00:00+00:00"
                         url := "http://example.test/hook"
                         body := "ping" }]
          hashes := [] }
    ∧ (post_tasks_new_webhook { webhooks := [], hashes := [] } exParse exRender 99 101
        "id1" true "2026-01-01T00:00:00+00:00" "example.test/hook" "ping").sent = none := by
  decide

/-- C6: on every startup init_open_db resets every in_progress row of both
tables to todo — afterwards no in_progress row remains and all other rows are
untouched — and main runs this healing (main.rs:86) strictly before the
re-enqueue pass (main.rs:104), which runs strictly before the creation API is
served (main.rs:110-142); the re-enqueue pass reads exactly the healed
database. -/
theorem startup_heals_then_reenqueues (db : Db) (parse : String → Option Int)
    (now : Int) :
    (∀ r ∈ db.webhooks, r.state = TState.in_progress →
        { r with state := TState.todo } ∈ (init_open_db db).webhooks)
    ∧ (∀ r ∈ db.hashes, r.state = TState.in_progress →
        { r with state := TState.todo } ∈ (init_open_db db).hashes)
    ∧ (∀ r ∈ db.webhooks, r.state ≠ TState.in_progress → r ∈ (init_open_db db).webhooks)
    ∧ (∀ r ∈ db.hashes, r.state ≠ TState.in_progress → r ∈ (init_open_db db).hashes)
    ∧ (∀ r ∈ (init_open_db db).webhooks, r.state ≠ TState.in_progress)
    ∧ (∀ r ∈ (init_open_db db).hashes, r.state ≠ TState.in_progress)
    ∧ startupReinserted db parse now = reinsert_tasks (init_open_db db) parse now
    ∧ mainStartupSequence.indexOf StartupStep.initOpenDbStep
        < mainStartupSequence.indexOf StartupStep.reinsertTasksStep
    ∧ mainStartupSequence.indexOf StartupStep.reinsertTasksStep
        < mainStartupSequence.indexOf StartupStep.serveApiStep := by
  refine ⟨?_, ?_, ?_, ?_, ?_, ?_, rfl, by decide, by decide⟩
  · intro r hr hs
    have heq : setStateW (fun r => r.state == TState.in_progress) TState.todo r
        = { r with state := TState.todo } := by
      simp [setStateW, hs]
    exact heq ▸ List.mem_map_of_mem _ hr
  · intro r hr hs
    have heq : setStateH (fun r => r.state == TState.in_progress) TState.todo r
        = { r with state := TState.todo } := by
      simp [setStateH, hs]
    exact heq ▸ List.mem_map_of_mem _ hr
  · intro r hr hs
    have heq : setStateW (fun r => r.state == TState.in_progress) TState.todo r = r := by
      simp [setStateW]
      intro h
      exact absurd h hs
    exact heq ▸ List.mem_map_of_mem _ hr
  · intro r hr hs
    have heq : setStateH (fun r => r.state == TState.in_progress) TState.todo r = r := by
      simp [setStateH]
      intro h
      exact absurd h hs
    exact heq ▸ List.mem_map_of_mem _ hr
  · intro r hr
    unfold init_open_db updateWebhooks at hr
    simp only [List.mem_map] at hr
    obtain ⟨r0, _, rfl⟩ := hr
    unfold setStateW
    by_cases hp : (r0.state == TState.in_progress) = true
    · simp [hp]
    · simp only [hp, Bool.false_eq_true, if_neg, if_false]
      simp at hp
      simpa using hp
  · intro r hr
    unfold init_open_db updateHashes at hr
    simp only [List.mem_map] at hr
    obtain ⟨r0, _, rfl⟩ := hr
    unfold setStateH
    by_cases hp : (r0.state == TState.in_progress) = true
    · simp [hp]
    · simp only [hp, Bool.false_eq_true, if_neg, if_false]
      simp at hp
      simpa using hp

/-- C7: for a webhook executor that wins the claim, the terminal state written
is 'done' exactly when some attempt within the six-attempt budget receives any
HTTP response — the response's status code is never consulted — and 'failed'
when every attempt ends in a transport error with no response ever
received. -/
theorem webhook_terminal_state (db : Db) (task : WorkerWebhook)
    (send : Nat → Option Nat)
    (hclaim : (db.webhooks.filter (claimPredW task.id)).length = 1) :
    ((∃ k, 1 ≤ k ∧ k ≤ 6 ∧ (send k).isSome = true) →
      ∀ r ∈ (handle_webhook db task true send).db.webhooks,
        r.id = task.id → r.state = TState.done)
    ∧ ((∀ k, 1 ≤ k → k ≤ 6 → send k = none) →
      ∀ r ∈ (handle_webhook db task true send).db.webhooks,
        r.id = task.id → r.state = TState.failed)
    ∧ (∃ r ∈ (handle_webhook db task true send).db.webhooks, r.id = task.id) := by
  have h2 : (claimWebhook db.webhooks task.id).2 = 1 := hclaim
  have hex : ∃ r0 ∈ db.webhooks, claimPredW task.id r0 = true := by
    rw [← filter_length_pos_iff]
    omega
  unfold handle_webhook
  rw [if_pos rfl, h2, if_neg (by omega)]
  refine ⟨?_, ?_, ?_⟩
  · intro hkex
    obtain ⟨k, hk1, hk6, hks⟩ := hkex
    have hsome : (retryLoop send 5 (send 1) 1 1).1.isSome = true := by
      rw [retryLoop_isSome_iff]
      by_cases hk : k = 1
      · subst hk
        exact Or.inl hks
      · exact Or.inr ⟨k, by omega, by omega, hks⟩
    cases hres : (retryLoop send 5 (send 1) 1 1).1 with
    | none => rw [hres] at hsome; simp at hsome
    | some v =>
      intro r hr hid
      exact finalizeWebhook_state _ task.id TState.done r hr hid
  · intro hall
    have hnone : (retryLoop send 5 (send 1) 1 1).1 = none := by
      rw [← Option.not_isSome_iff_eq_none]
      intro hsome
      rcases (retryLoop_isSome_iff send 5 (send 1) 1 1).mp hsome with hbase | ⟨k, hk1, hk6, hks⟩
      · rw [hall 1 (by omega) (by omega)] at hbase
        simp at hbase
      · rw [hall k (by omega) (by omega)] at hks
        simp at hks
    cases hres : (retryLoop send 5 (send 1) 1 1).1 with
    | some v => rw [hres] at hnone; simp at hnone
    | none =>
      intro r hr hid
      exact finalizeWebhook_state _ task.id TState.failed r hr hid
  · obtain ⟨r0, hr0, hp0⟩ := hex
    have hid0 : r0.id = task.id := by
      unfold claimPredW at hp0
      have := (Bool.and_eq_true _ _).mp hp0
      simpa using this.1
    cases hres : (retryLoop send 5 (send 1) 1 1).1 with
    | some v =>
      refine ⟨setStateW (fun r => r.id == task.id) TState.done
        (setStateW (claimPredW task.id) TState.in_progress r0), ?_, ?_⟩
      · exact List.mem_map_of_mem _ (List.mem_map_of_mem _ hr0)
      · rw [setStateW_id, setStateW_id]
        exact hid0
    | none =>
      refine ⟨setStateW (fun r => r.id == task.id) TState.failed
        (setStateW (claimPredW task.id) TState.in_progress r0), ?_, ?_⟩
      · exact List.mem_map_of_mem _ (List.mem_map_of_mem _ hr0)
      · rw [setStateW_id, setStateW_id]
        exact hid0

/-- C7 witness: a transport that answers the third attempt with HTTP 500 —
still a received response — finalizes the concrete task 'done'. -/
theorem webhook_terminal_state_witness :
    (exDb.webhooks.filter (claimPredW exWorkerWebhook.id)).length = 1
    ∧ (∃ k, 1 ≤ k ∧ k ≤ 6
        ∧ ((fun k => if k = 3 then some 500 else none) k).isSome = true)
    ∧ (∀ r ∈ (handle_webhook exDb exWorkerWebhook true
          (fun k => if k = 3 then some 500 else none)).db.webhooks,
        r.id = exWorkerWebhook.id → r.state = TState.done) :=
  ⟨by decide, ⟨3, by decide, by decide, by decide⟩,
    (webhook_terminal_state exDb exWorkerWebhook
        (fun k => if k = 3 then some 500 else none) (by decide)).1
      ⟨3, by decide, by decide, by decide⟩⟩

/-- The DELETE guard matches exactly the rows of the requested id whose state
is not in_progress. -/
theorem deletePredW_iff (i : String) (r : WebhookRow) :
    deletePredW i r = true ↔ (r.id = i ∧ r.state ≠ TState.in_progress) := by
  unfold deletePredW
  simp

/-- The hashes-table twin of `deletePredW_iff`. -/
theorem deletePredH_iff (i : String) (r : HashRow) :
    deletePredH i r = true ↔ (r.id = i ∧ r.state ≠ TState.in_progress) := by
  unfold deletePredH
  simp

/-- In every branch of delete_task the webhooks table afterwards is the
guarded-DELETE result. -/
theorem delete_task_webhooks (db : Db) (i : String) :
    (delete_task db i).db.webhooks = (deleteWebhooks db.webhooks (deletePredW i)).1 := by
  unfold delete_task
  split
  · rfl
  · split <;> rfl

/-- When the webhooks DELETE affected no row, the hashes table afterwards is
the guarded-DELETE result. -/
theorem delete_task_hashes_lower (db : Db) (i : String)
    (h : ¬ 1 ≤ (deleteWebhooks db.webhooks (deletePredW i)).2) :
    (delete_task db i).db.hashes = (deleteHashes db.hashes (deletePredH i)).1 := by
  unfold delete_task
  rw [if_neg h]
  split <;> rfl

/-- When the webhooks DELETE affected a row, delete_task returns at once and
the hashes table is untouched. -/
theorem delete_task_hashes_upper (db : Db) (i : String)
    (h : 1 ≤ (deleteWebhooks db.webhooks (deletePredW i)).2) :
    (delete_task db i).db.hashes = db.hashes := by
  unfold delete_task
  rw [if_pos h]

/-- C8: a delete request removes a row precisely when its id is the requested
one and its state is todo, failed or done (equivalently, not in_progress): such
rows are removed from either table, rows in state in_progress and rows of other
ids always survive, no row is invented, and the request reports success
exactly when some such deletable row existed.  The cross-table hypothesis is
the spec's id-uniqueness invariant (ids are never shared between the two
tables). -/
theorem delete_task_guard (db : Db) (i : String)
    (hcross : ¬ ((∃ r ∈ db.webhooks, r.id = i) ∧ (∃ r ∈ db.hashes, r.id = i))) :
    (∀ s : TState, s ≠ TState.in_progress
        ↔ (s = TState.todo ∨ s = TState.failed ∨ s = TState.done))
    ∧ (∀ r ∈ db.webhooks, r.id = i → r.state ≠ TState.in_progress →
        r ∉ (delete_task db i).db.webhooks)
    ∧ (∀ r ∈ db.hashes, r.id = i → r.state ≠ TState.in_progress →
        r ∉ (delete_task db i).db.hashes)
    ∧ (∀ r ∈ db.webhooks, r.state = TState.in_progress →
        r ∈ (delete_task db i).db.webhooks)
    ∧ (∀ r ∈ db.hashes, r.state = TState.in_progress →
        r ∈ (delete_task db i).db.hashes)
    ∧ (∀ r ∈ db.webhooks, r.id ≠ i → r ∈ (delete_task db i).db.webhooks)
    ∧ (∀ r ∈ db.hashes, r.id ≠ i → r ∈ (delete_task db i).db.hashes)
    ∧ (∀ r ∈ (delete_task db i).db.webhooks, r ∈ db.webhooks)
    ∧ (∀ r ∈ (delete_task db i).db.hashes, r ∈ db.hashes)
    ∧ (((∃ r ∈ db.webhooks, r.id = i ∧ r.state ≠ TState.in_progress)
        ∨ (∃ r ∈ db.hashes, r.id = i ∧ r.state ≠ TState.in_progress))
      ↔ (delete_task db i).resp = RespDeleteTask.success) := by
  refine ⟨fun s => by cases s <;> decide, ?_, ?_, ?_, ?_, ?_, ?_, ?_, ?_, ?_⟩
  · intro r hr hid hst hmem
    rw [delete_task_webhooks] at hmem
    unfold deleteWebhooks at hmem
    have := (List.mem_filter.mp hmem).2
    rw [(deletePredW_iff i r).mpr ⟨hid, hst⟩] at this
    simp at this
  · intro r hr hid hst hmem
    have hnoW : ¬ 1 ≤ (deleteWebhooks db.webhooks (deletePredW i)).2 := by
      intro hb
      obtain ⟨rw0, hrw0, hpw0⟩ := (filter_length_pos_iff _ _).mp hb
      exact hcross ⟨⟨rw0, hrw0, ((deletePredW_iff i rw0).mp hpw0).1⟩, ⟨r, hr, hid⟩⟩
    rw [delete_task_hashes_lower db i hnoW] at hmem
    unfold deleteHashes at hmem
    have := (List.mem_filter.mp hmem).2
    rw [(deletePredH_iff i r).mpr ⟨hid, hst⟩] at this
    simp at this
  · intro r hr hst
    rw [delete_task_webhooks]
    unfold deleteWebhooks
    refine List.mem_filter.mpr ⟨hr, ?_⟩
    simp only [Bool.not_eq_true']
    rw [← Bool.not_eq_true, deletePredW_iff]
    rintro ⟨_, hne⟩
    exact hne hst
  · intro r hr hst
    by_cases hb : 1 ≤ (deleteWebhooks db.webhooks (deletePredW i)).2
    · rw [delete_task_hashes_upper db i hb]
      exact hr
    · rw [delete_task_hashes_lower db i hb]
      unfold deleteHashes
      refine List.mem_filter.mpr ⟨hr, ?_⟩
      simp only [Bool.not_eq_true']
      rw [← Bool.not_eq_true, deletePredH_iff]
      rintro ⟨_, hne⟩
      exact hne hst
  · intro r hr hid
    rw [delete_task_webhooks]
    unfold deleteWebhooks
    refine List.mem_filter.mpr ⟨hr, ?_⟩
    simp only [Bool.not_eq_true']
    rw [← Bool.not_eq_true, deletePredW_iff]
    rintro ⟨heq, _⟩
    exact hid heq
  · intro r hr hid
    by_cases hb : 1 ≤ (deleteWebhooks db.webhooks (deletePredW i)).2
    · rw [delete_task_hashes_upper db i hb]
      exact hr
    · rw [delete_task_hashes_lower db i hb]
      unfold deleteHashes
      refine List.mem_filter.mpr ⟨hr, ?_⟩
      simp only [Bool.not_eq_true']
      rw [← Bool.not_eq_true, deletePredH_iff]
      rintro ⟨heq, _⟩
      exact hid heq
  · intro r hmem
    rw [delete_task_webhooks] at hmem
    exact List.mem_of_mem_filter hmem
  · intro r hmem
    by_cases hb : 1 ≤ (deleteWebhooks db.webhooks (deletePredW i)).2
    · rw [delete_task_hashes_upper db i hb] at hmem
      exact hmem
    · rw [delete_task_hashes_lower db i hb] at hmem
      exact List.mem_of_mem_filter hmem
  · constructor
    · rintro (⟨r, hr, hid, hst⟩ | ⟨r, hr, hid, hst⟩)
      · have hb : 1 ≤ (deleteWebhooks db.webhooks (deletePredW i)).2 :=
          (filter_length_pos_iff _ _).mpr ⟨r, hr, (deletePredW_iff i r).mpr ⟨hid, hst⟩⟩
        unfold delete_task
        rw [if_pos hb]
      · by_cases hb : 1 ≤ (deleteWebhooks db.webhooks (deletePredW i)).2
        · unfold delete_task
          rw [if_pos hb]
        · have hb2 : 1 ≤ (deleteHashes db.hashes (deletePredH i)).2 :=
            (filter_length_pos_iff _ _).mpr ⟨r, hr, (deletePredH_iff i r).mpr ⟨hid, hst⟩⟩
          unfold delete_task
          rw [if_neg hb, if_pos hb2]
    · intro hresp
      by_cases hb : 1 ≤ (deleteWebhooks db.webhooks (deletePredW i)).2
      · obtain ⟨r, hr, hp⟩ := (filter_length_pos_iff _ _).mp hb
        exact Or.inl ⟨r, hr, (deletePredW_iff i r).mp hp⟩
      · by_cases hb2 : 1 ≤ (deleteHashes db.hashes (deletePredH i)).2
        · obtain ⟨r, hr, hp⟩ := (filter_length_pos_iff _ _).mp hb2
          exact Or.inr ⟨r, hr, (deletePredH_iff i r).mp hp⟩
        · unfold delete_task at hresp
          rw [if_neg hb, if_neg hb2] at hresp
          simp at hresp

/-- C8 witness: on the concrete store, deletion of the todo webhook task
succeeds exactly because a deletable row of that id exists. -/
theorem delete_task_guard_witness :
    (¬ ((∃ r ∈ exDb.webhooks, r.id = "w1") ∧ (∃ r ∈ exDb.hashes, r.id = "w1")))
    ∧ (((∃ r ∈ exDb.webhooks, r.id = "w1" ∧ r.state ≠ TState.in_progress)
        ∨ (∃ r ∈ exDb.hashes, r.id = "w1" ∧ r.state ≠ TState.in_progress))
      ↔ (delete_task exDb "w1").resp = RespDeleteTask.success) :=
  ⟨by decide,
    (delete_task_guard exDb "w1" (by decide)).2.2.2.2.2.2.2.2.2⟩

/-- C9: the terminal writes of both executors condition on the task id only
(UPDATE ... WHERE id = $1, no state clause): whatever state a matching row
holds at finalization time — including one changed by another actor between
the claim and the terminal write — is overwritten with the terminal state, the
write affects every row of that id regardless of its current state, and its
rows-affected count likewise counts ids, not states. -/
theorem terminal_write_overwrites
    (tw : List WebhookRow) (th : List HashRow) (iw ih : String) (s : TState)
    (wrow : WebhookRow) (hrow : HashRow)
    (hwm : wrow ∈ tw) (hhm : hrow ∈ th) (hwi : wrow.id = iw) (hhi : hrow.id = ih) :
    { wrow with state := s } ∈ (finalizeWebhook tw iw s).1
    ∧ { hrow with state := s } ∈ (finalizeHash th ih s).1
    ∧ (finalizeWebhook tw iw s).2 = (tw.filter (fun r => r.id == iw)).length
    ∧ (finalizeHash th ih s).2 = (th.filter (fun r => r.id == ih)).length
    ∧ (∀ r ∈ (finalizeWebhook tw iw s).1, r.id = iw → r.state = s)
    ∧ (∀ r ∈ (finalizeHash th ih s).1, r.id = ih → r.state = s) := by
  refine ⟨?_, ?_, rfl, rfl, finalizeWebhook_state tw iw s, finalizeHash_state th ih s⟩
  · have heq : setStateW (fun r => r.id == iw) s wrow = { wrow with state := s } := by
      simp [setStateW, hwi]
    exact heq ▸ List.mem_map_of_mem _ hwm
  · have heq : setStateH (fun r => r.id == ih) s hrow = { hrow with state := s } := by
      simp [setStateH, hhi]
    exact heq ▸ List.mem_map_of_mem _ hhm

/-- C9 witness: rows already moved to 'failed' by another actor are still
overwritten to 'done' by the id-only terminal write. -/
theorem terminal_write_overwrites_witness :
    ((exRowFailedW ∈ [exRowFailedW] ∧ exRowFailedH ∈ [exRowFailedH])
      ∧ (exRowFailedW.id = "w1" ∧ exRowFailedH.id = "h1"))
    ∧ ({ exRowFailedW with state := TState.done }
        ∈ (finalizeWebhook [exRowFailedW] "w1" TState.done).1
      ∧ { exRowFailedH with state := TState.done }
        ∈ (finalizeHash [exRowFailedH] "h1" TState.done).1) :=
  ⟨⟨⟨by decide, by decide⟩, by decide, by decide⟩,
    (terminal_write_overwrites [exRowFailedW] [exRowFailedH] "w1" "h1" TState.done
      exRowFailedW exRowFailedH (by decide) (by decide) (by decide) (by decide)).1,
    (terminal_write_overwrites [exRowFailedW] [exRowFailedH] "w1" "h1" TState.done
      exRowFailedW exRowFailedH (by decide) (by decide) (by decide) (by decide)).2.1⟩

/-- C10: deleting a task all of whose rows are in_progress yields exactly the
HTTP 400 does-not-exist failure that deleting an id present in neither table
yields, and deletes nothing — a caller cannot tell a protected in-flight task
from a missing one. -/
theorem delete_in_progress_indistinguishable (db dbM : Db) (i : String)
    (h1 : ∀ r ∈ db.webhooks, r.id = i → r.state = TState.in_progress)
    (h2 : ∀ r ∈ db.hashes, r.id = i → r.state = TState.in_progress)
    (h3 : ∀ r ∈ dbM.webhooks, r.id ≠ i)
    (h4 : ∀ r ∈ dbM.hashes, r.id ≠ i) :
    (delete_task db i).status = 400
    ∧ (delete_task db i).resp
        = RespDeleteTask.failure ("Task '" ++ i ++ "' does not exist")
    ∧ (delete_task db i).db = db
    ∧ (delete_task dbM i).status = (delete_task db i).status
    ∧ (delete_task dbM i).resp = (delete_task db i).resp := by
  have hpW : ∀ r ∈ db.webhooks, deletePredW i r = false := by
    intro r hr
    rw [← Bool.not_eq_true, deletePredW_iff]
    rintro ⟨hid, hst⟩
    exact hst (h1 r hr hid)
  have hpH : ∀ r ∈ db.hashes, deletePredH i r = false := by
    intro r hr
    rw [← Bool.not_eq_true, deletePredH_iff]
    rintro ⟨hid, hst⟩
    exact hst (h2 r hr hid)
  have hpWM : ∀ r ∈ dbM.webhooks, deletePredW i r = false := by
    intro r hr
    rw [← Bool.not_eq_true, deletePredW_iff]
    rintro ⟨hid, _⟩
    exact h3 r hr hid
  have hpHM : ∀ r ∈ dbM.hashes, deletePredH i r = false := by
    intro r hr
    rw [← Bool.not_eq_true, deletePredH_iff]
    rintro ⟨hid, _⟩
    exact h4 r hr hid
  have hbW : ¬ 1 ≤ (deleteWebhooks db.webhooks (deletePredW i)).2 := by
    have : (db.webhooks.filter (deletePredW i)).length = 0 := filter_length_zero hpW
    show ¬ 1 ≤ (db.webhooks.filter (deletePredW i)).length
    omega
  have hbH : ¬ 1 ≤ (deleteHashes db.hashes (deletePredH i)).2 := by
    have : (db.hashes.filter (deletePredH i)).length = 0 := filter_length_zero hpH
    show ¬ 1 ≤ (db.hashes.filter (deletePredH i)).length
    omega
  have hbWM : ¬ 1 ≤ (deleteWebhooks dbM.webhooks (deletePredW i)).2 := by
    have : (dbM.webhooks.filter (deletePredW i)).length = 0 := filter_length_zero hpWM
    show ¬ 1 ≤ (dbM.webhooks.filter (deletePredW i)).length
    omega
  have hbHM : ¬ 1 ≤ (deleteHashes dbM.hashes (deletePredH i)).2 := by
    have : (dbM.hashes.filter (deletePredH i)).length = 0 := filter_length_zero hpHM
    show ¬ 1 ≤ (dbM.hashes.filter (deletePredH i)).length
    omega
  have hfw : (deleteWebhooks db.webhooks (deletePredW i)).1 = db.webhooks := by
    unfold deleteWebhooks
    exact List.filter_eq_self.mpr (fun r hr => by rw [hpW r hr]; rfl)
  have hfh : (deleteHashes db.hashes (deletePredH i)).1 = db.hashes := by
    unfold deleteHashes
    exact List.filter_eq_self.mpr (fun r hr => by rw [hpH r hr]; rfl)
  unfold delete_task
  rw [if_neg hbW, if_neg hbH, if_neg hbWM, if_neg hbHM]
  refine ⟨rfl, rfl, ?_, rfl, rfl⟩
  show ({ webhooks := (deleteWebhooks db.webhooks (deletePredW i)).1,
          hashes := (deleteHashes db.hashes (deletePredH i)).1 } : Db) = db
  rw [hfw, hfh]

/-- C10 witness: a store whose only rows of the requested id are in_progress
against an empty store: identical 400 responses. -/
theorem delete_in_progress_indistinguishable_witness :
    ((∀ r ∈ exDbInProg.webhooks, r.id = "w1" → r.state = TState.in_progress)
      ∧ (∀ r ∈ exDbInProg.hashes, r.id = "w1" → r.state = TState.in_progress)
      ∧ (∀ r ∈ exDbEmpty.webhooks, r.id ≠ "w1")
      ∧ (∀ r ∈ exDbEmpty.hashes, r.id ≠ "w1"))
    ∧ ((delete_task exDbInProg "w1").status = 400
      ∧ (delete_task exDbInProg "w1").resp
        = RespDeleteTask.failure ("Task '" ++ "w1" ++ "' does not exist")
      ∧ (delete_task exDbInProg "w1").db = exDbInProg
      ∧ (delete_task exDbEmpty "w1").status = (delete_task exDbInProg "w1").status
      ∧ (delete_task exDbEmpty "w1").resp = (delete_task exDbInProg "w1").resp) :=
  ⟨⟨by decide, by decide, by decide, by decide⟩,
    delete_in_progress_indistinguishable exDbInProg exDbEmpty "w1"
      (by decide) (by decide) (by decide) (by decide)⟩

end TaskRunner
